import Mathlib

/-! Verification of the synthetic fact backend of `tools/mega_facts.py`:
corpus generation (`MegaFactsBackend.from_synthetic`), the query template
parser, gold/noise partitioning and pagination (`MegaFactsBackend.query`). -/

/-- Python runtime exceptions raised by the modelled operations. -/
inductive PyErr where
  | zeroDivisionError : PyErr
  | valueError : PyErr
  | indexError : PyErr
deriving DecidableEq

/-- Modelled from the spec: the backend owns one seeded pseudo-random
generator, Python's `random.Random(seed)` — an external library (its
Mersenne-Twister stream is not part of this repository).  The spec requires
only that all randomness flows from one generator instance that is a
deterministic function of `seed`; it is modelled here as a
linear-congruential state machine.  No claim depends on the concrete
numbers drawn, only on determinism and on `shuffle` being a permutation. -/
structure PyRandom where
  state : Nat
deriving DecidableEq

def PyRandom.seedInit (seed : Nat) : PyRandom := ⟨seed % 2147483648⟩

def PyRandom.next (r : PyRandom) : Nat × PyRandom :=
  let s := (r.state * 1103515245 + 12345) % 2147483648
  (s, ⟨s⟩)

/-- Python `random.Random.randint(a, b)`: uniform on `[a, b]`, raising
`ValueError` when the range is empty (`b < a`). -/
def PyRandom.randint (r : PyRandom) (a b : Int) : Except PyErr (Int × PyRandom) :=
  if b < a then .error .valueError
  else
    let p := r.next
    .ok (a + ((p.1 % (b - a + 1).toNat : Nat) : Int), p.2)

/-- Python `random.Random.choice(seq)`: pick one element, `IndexError` when
the sequence is empty. -/
def PyRandom.choice (r : PyRandom) (l : List String) : Except PyErr (String × PyRandom) :=
  match l with
  | [] => .error .indexError
  | x :: xs =>
    let p := r.next
    .ok ((x :: xs).getD (p.1 % (xs.length + 1)) x, p.2)

/-- Remove and return the element at position `k`, when in range. -/
def pickNth {α : Type} : List α → Nat → Option (α × List α)
  | [], _ => none
  | x :: xs, 0 => some (x, xs)
  | x :: xs, k + 1 => (pickNth xs k).map (fun p => (p.1, x :: p.2))

def shuffleStep {α : Type} (rec : PyRandom → List α → List α × PyRandom)
    (r : PyRandom) (l : List α) : List α × PyRandom :=
  match l with
  | [] => ([], r)
  | x :: xs =>
    let p := r.next
    let q := (pickNth (x :: xs) (p.1 % (xs.length + 1))).getD (x, xs)
    let rest := rec p.2 q.2
    (q.1 :: rest.1, rest.2)

def shuffleGo {α : Type} : Nat → PyRandom → List α → List α × PyRandom
  | 0, r, l => (l, r)
  | fuel + 1, r, l => shuffleStep (shuffleGo fuel) r l

/-- Modelled from the spec: `random.Random.shuffle` permutes the list,
driven by (and consuming) the generator stream. -/
def PyRandom.shuffle {α : Type} (r : PyRandom) (l : List α) : List α × PyRandom :=
  shuffleGo l.length r l

/-- The ten decimal digit characters (Python decimal rendering only ever
uses digits below ten). -/
def pyDigitChar : Nat → Char
  | 0 => '0'
  | 1 => '1'
  | 2 => '2'
  | 3 => '3'
  | 4 => '4'
  | 5 => '5'
  | 6 => '6'
  | 7 => '7'
  | 8 => '8'
  | 9 => '9'
  | _ => '*'

/-- Fuelled digit extraction; the fuel argument only forces structural
termination and `natChars` always supplies enough of it. -/
def natCharsGo : Nat → Nat → List Char
  | 0, _ => []
  | fuel + 1, n =>
    if n < 10 then [pyDigitChar n]
    else natCharsGo fuel (n / 10) ++ [pyDigitChar (n % 10)]

/-- Decimal digit characters of `n`, most significant first: Python `str`
of a non-negative integer, as interpolated by the f-strings of the source. -/
def natChars (n : Nat) : List Char := natCharsGo (n + 1) n

def natStr (n : Nat) : String := (natChars n).asString

/-- Python `str` of an integer. -/
def intStr (i : Int) : String :=
  if i < 0 then "-" ++ natStr i.natAbs else natStr i.toNat

/-- Python format specifier `{:02d}`, as used for the calendar fields. -/
def pad2 (i : Int) : String :=
  if 0 ≤ i ∧ i < 10 then "0" ++ intStr i else intStr i

/-- Characters on which Python `str.split()` (no separator) splits. -/
def isPySpace (c : Char) : Bool :=
  c == ' ' || c == '\t' || c == '\n' || c == '\r' || c == '\x0b' || c == '\x0c'

def wordsAux : List Char → List Char → List (List Char)
  | [], acc => if acc.isEmpty then [] else [acc.reverse]
  | c :: cs, acc =>
    if isPySpace c then
      if acc.isEmpty then wordsAux cs [] else acc.reverse :: wordsAux cs []
    else wordsAux cs (c :: acc)

/-- Python `q.strip().split()`: whitespace-run tokenisation, empty tokens
never produced.  (`strip` is subsumed: leading and trailing runs are
dropped by `split` itself.) -/
def pySplit (s : String) : List String := (wordsAux s.data []).map List.asString

/-- One corpus record — a Python dict with the six fixed keys; Python dicts
compare by value, which structure equality mirrors. -/
structure FactRec where
  subject : String
  predicate : String
  object : String
  ts : String
  tags : List String
  source : String
deriving DecidableEq

/-- Step-1 gold fact of `from_synthetic` for entity index `i`, object
index `ob`. -/
def mkGoldFact (i ob : Nat) : FactRec :=
  ⟨"gold.entity." ++ natStr i, "is associated with", "gold.topic." ++ natStr ob,
   "2024-06-01T00:00:00", ["gold"], "synthetic"⟩

/-- Python `%` on an int with divisor `topic_mod`: `ZeroDivisionError` on a
zero divisor. -/
def pyModInt (a : Int) (b : Nat) : Except PyErr Int :=
  if b = 0 then .error .zeroDivisionError else .ok (a % (b : Int))

/-- Step 1 of `from_synthetic`: `for i in range(s, s + n)` emitting the
aligned gold facts; `i % topic_mod` raises when `topic_mod = 0`. -/
def step1Loop (tm : Nat) : Nat → Nat → Except PyErr (List FactRec)
  | _, 0 => .ok []
  | i, n + 1 =>
    if tm = 0 then .error .zeroDivisionError
    else do
      let rest ← step1Loop tm (i + 1) n
      .ok (mkGoldFact i (i % tm) :: rest)

/-- Extra random gold fact of step 2 of `from_synthetic`. -/
def mkExtraGoldFact (x ob d : Int) : FactRec :=
  ⟨"gold.entity." ++ intStr x, "is associated with", "gold.topic." ++ intStr ob,
   "2024-07-" ++ pad2 d ++ "T00:00:00", ["gold", "extra"], "synthetic"⟩

/-- Step 2 of `from_synthetic`: the `extra_gold` randomly indexed gold
facts. -/
def extraLoop (ge tm : Nat) : Nat → PyRandom → Except PyErr (List FactRec × PyRandom)
  | 0, r => .ok ([], r)
  | n + 1, r => do
    let xp ← r.randint 1 ((ge : Int) * 5)
    let ob ← pyModInt xp.1 tm
    let dp ← xp.2.randint 1 28
    let rest ← extraLoop ge tm n dp.2
    .ok (mkExtraGoldFact xp.1 ob dp.1 :: rest.1, rest.2)

/-- The fixed relation vocabulary for noise facts. -/
def verbs : List String :=
  ["mentions", "is unrelated to", "conflicts with", "precedes", "follows",
   "uses", "depends on", "is similar to", "replaces", "is replaced by"]

def mkNoiseFact (a b : Int) (verb : String) (mo d : Int) : FactRec :=
  ⟨"noise.entity." ++ intStr a, verb, "noise.topic." ++ intStr b,
   "2023-" ++ pad2 mo ++ "-" ++ pad2 d ++ "T00:00:00", ["noise"], "synthetic"⟩

/-- Step 3 of `from_synthetic`: noise facts filling the corpus up to
`n_facts`. -/
def noiseLoop (ge tm : Nat) : Nat → PyRandom → Except PyErr (List FactRec × PyRandom)
  | 0, r => .ok ([], r)
  | n + 1, r => do
    let ap ← r.randint 1 ((ge : Int) * 5)
    let bp ← ap.2.randint 0 ((tm : Int) - 1)
    let vp ← bp.2.choice verbs
    let mp ← vp.2.randint 1 12
    let dp ← mp.2.randint 1 28
    let rest ← noiseLoop ge tm n dp.2
    .ok (mkNoiseFact ap.1 bp.1 vp.1 mp.1 dp.1 :: rest.1, rest.2)

/-- The synthetic fact backend: full corpus, gold subset and the shared
mutable RNG stream. -/
structure MegaFactsBackend where
  facts : List FactRec
  gold : List FactRec
  rng : PyRandom
deriving DecidableEq

/-- `MegaFactsBackend.from_synthetic`: aligned gold facts, optional extra
random gold, noise filler, then one shuffle of the combined list. -/
def MegaFactsBackend.from_synthetic (n_facts n_gold seed gold_entities topic_mod : Nat) :
    Except PyErr MegaFactsBackend :=
  let r := PyRandom.seedInit seed
  match step1Loop topic_mod 1 gold_entities with
  | .error e => .error e
  | .ok gold1 =>
    match extraLoop gold_entities topic_mod (n_gold - gold_entities) r with
    | .error e => .error e
    | .ok exp =>
      let gold := gold1 ++ exp.1
      match noiseLoop gold_entities topic_mod (n_facts - gold.length) exp.2 with
      | .error e => .error e
      | .ok np =>
        let facts := gold ++ np.1
        let sp := PyRandom.shuffle np.2 facts
        .ok ⟨sp.1, gold, sp.2⟩

/-- `entity = parts[0]` under the defensive `try`: `None` exactly when the
token list is empty. -/
def parsedEntity (q : String) : Option String := (pySplit q).head?

/-- `topic = parts[-1]` under the defensive `try`. -/
def parsedTopic (q : String) : Option String := (pySplit q).getLast?

/-- `is_gold_match` of `MegaFactsBackend.query`: field equality against the
parsed entity and topic (a string never equals `None`). -/
def is_gold_match (entity topic : Option String) (rec : FactRec) : Bool :=
  decide (entity = some rec.subject) && decide (rec.predicate = "is associated with")
    && decide (topic = some rec.object)

/-- `gold_hits` of `MegaFactsBackend.query`. -/
def MegaFactsBackend.goldHits (b : MegaFactsBackend) (q : String) : List FactRec :=
  b.gold.filter (is_gold_match (parsedEntity q) (parsedTopic q))

/-- `noise_candidates` of `MegaFactsBackend.query` before shuffling:
`f not in gold_hits` is Python value-based membership. -/
def MegaFactsBackend.noisePool (b : MegaFactsBackend) (q : String) : List FactRec :=
  b.facts.filter (fun f => !(decide (f ∈ b.goldHits q)))

/-- Normalise one bound of a Python slice `l[a:b]` against length `n`. -/
def pySliceBound (n : Nat) (i : Int) : Nat :=
  if i < 0 then (i + (n : Int)).toNat else min i.toNat n

/-- Python list slicing `l[a:b]` with the implicit step 1. -/
def pySlice {α : Type} (l : List α) (a b : Int) : List α :=
  (l.drop (pySliceBound l.length a)).take (pySliceBound l.length b - pySliceBound l.length a)

/-- `MegaFactsBackend.query`: gold matches first, freshly shuffled noise
appended, the whole list in fat mode or one slice in paged mode.  The
returned backend is the receiver as the call leaves it: same facts and
gold, RNG advanced by the shuffle. -/
def MegaFactsBackend.query (b : MegaFactsBackend) (q : String) (mode : String)
    (page page_size : Int) : List FactRec × MegaFactsBackend :=
  let sp := PyRandom.shuffle b.rng (b.noisePool q)
  let b' : MegaFactsBackend := ⟨b.facts, b.gold, sp.2⟩
  let items_full := b.goldHits q ++ sp.1
  if mode == "fat" then (items_full, b')
  else
    let start : Int := max 0 ((page - 1) * page_size)
    (pySlice items_full start (start + page_size), b')

/-- Number of items any single query call returns before pagination:
gold hits plus shuffled noise. -/
def totalCount (b : MegaFactsBackend) (q : String) : Nat :=
  (b.goldHits q).length + (b.noisePool q).length

/-- Sequential paged calls for pages `page, page + 1, ...` against one
backend, threading its state and concatenating the returned pages. -/
def pagedRun (q : String) (ps : Int) : MegaFactsBackend → Nat → Nat → List FactRec × MegaFactsBackend
  | b, _, 0 => ([], b)
  | b, page, c + 1 =>
    let r₁ := b.query q ("paged") (page : Int) ps
    let r₂ := pagedRun q ps r₁.2 (page + 1) c
    (r₁.1 ++ r₂.1, r₂.2)

/-- An arbitrary sequence of query calls (query, mode, page, page size),
threading the backend state. -/
def runQueries : MegaFactsBackend → List (String × String × Int × Int) → MegaFactsBackend
  | b, [] => b
  | b, c :: rest => runQueries (b.query c.1 c.2.1 c.2.2.1 c.2.2.2).2 rest

/-- The fixed benchmark query template for entity `i` and topic `j`. -/
def goldQuery (i j : Nat) : String :=
  "gold.entity." ++ natStr i ++ " is associated with gold.topic." ++ natStr j

/-- A small concrete backend (`from_synthetic 0 0 0 1 1`), used to
instantiate hypotheses in closed corollaries. -/
def sampleBackend : MegaFactsBackend :=
  match MegaFactsBackend.from_synthetic 0 0 0 1 1 with
  | .ok b => b
  | .error _ => ⟨[], [], ⟨0⟩⟩

/-- The backend of `from_synthetic 2 3 0 1 1`: more gold requested than
`n_facts`, so the corpus exceeds `n_facts`. -/
def cexBackend : MegaFactsBackend :=
  match MegaFactsBackend.from_synthetic 2 3 0 1 1 with
  | .ok b => b
  | .error _ => ⟨[], [], ⟨0⟩⟩

/-- A one-fact backend whose single fact is gold, for closed counterexamples
about query behaviour. -/
def tinyGoldBackend : MegaFactsBackend :=
  ⟨[mkGoldFact 1 0], [mkGoldFact 1 0], ⟨0⟩⟩

/-- A one-fact backend whose single fact is noise (empty gold list). -/
def tinyNoiseBackend : MegaFactsBackend :=
  ⟨[mkNoiseFact 1 0 ("mentions") 1 1], [], ⟨0⟩⟩

/-! Basic lemmas about the shuffle. -/

theorem pickNth_perm {α : Type} :
    ∀ (l : List α) (k : Nat) (p : α × List α), pickNth l k = some p → (p.1 :: p.2).Perm l := by
  intro l
  induction l with
  | nil => intro k p h; simp [pickNth] at h
  | cons x xs ih =>
    intro k p h
    cases k with
    | zero =>
      simp only [pickNth, Option.some.injEq] at h
      subst h
      exact List.Perm.refl _
    | succ k =>
      simp only [pickNth, Option.map_eq_some'] at h
      obtain ⟨q, hq, hqp⟩ := h
      have hperm := ih k q hq
      rw [← hqp]
      show (q.1 :: x :: q.2).Perm (x :: xs)
      exact (List.Perm.swap x q.1 q.2).trans (hperm.cons x)

theorem shuffleGo_perm {α : Type} :
    ∀ (fuel : Nat) (r : PyRandom) (l : List α), ((shuffleGo fuel r l).1).Perm l := by
  intro fuel
  induction fuel with
  | zero => intro r l; simp [shuffleGo]
  | succ fuel ih =>
    intro r l
    cases l with
    | nil => simp [shuffleGo, shuffleStep]
    | cons x xs =>
      simp only [shuffleGo, shuffleStep]
      have hq : List.Perm
          (((pickNth (x :: xs) (r.next.1 % (xs.length + 1))).getD (x, xs)).1 ::
            ((pickNth (x :: xs) (r.next.1 % (xs.length + 1))).getD (x, xs)).2) (x :: xs) := by
        cases hp : pickNth (x :: xs) (r.next.1 % (xs.length + 1)) with
        | none => simp
        | some q => simpa using pickNth_perm _ _ _ hp
      exact ((ih _ _).cons _).trans hq

theorem shuffle_perm {α : Type} (r : PyRandom) (l : List α) :
    ((PyRandom.shuffle r l).1).Perm l :=
  shuffleGo_perm _ _ _

theorem shuffle_length {α : Type} (r : PyRandom) (l : List α) :
    (PyRandom.shuffle r l).1.length = l.length :=
  (shuffle_perm r l).length_eq

/-! Lemmas about the generation loops. -/

theorem step1Loop_length (tm : Nat) :
    ∀ (n i : Nat) (l : List FactRec), step1Loop tm i n = .ok l → l.length = n := by
  intro n
  induction n with
  | zero =>
    intro i l h
    simp only [step1Loop] at h
    cases h
    rfl
  | succ n ih =>
    intro i l h
    simp only [step1Loop] at h
    split at h
    · cases h
    · cases hr : step1Loop tm (i + 1) n with
      | error e => rw [hr] at h; cases h
      | ok rest =>
        rw [hr] at h
        simp only [bind, Except.bind] at h
        cases h
        simp [ih _ _ hr]

theorem step1Loop_eq (tm : Nat) (htm : tm ≠ 0) :
    ∀ (n i : Nat),
      step1Loop tm i n = .ok ((List.range n).map fun t => mkGoldFact (i + t) ((i + t) % tm)) := by
  intro n
  induction n with
  | zero => intro i; simp [step1Loop]
  | succ n ih =>
    intro i
    simp only [step1Loop, if_neg htm]
    rw [ih (i + 1)]
    simp only [bind, Except.bind, List.range_succ_eq_map, List.map_cons, List.map_map]
    simp [Function.comp, Nat.add_comm, Nat.add_assoc, Nat.add_left_comm]

theorem extraLoop_length (ge tm : Nat) :
    ∀ (n : Nat) (r : PyRandom) (l : List FactRec) (r' : PyRandom),
      extraLoop ge tm n r = .ok (l, r') → l.length = n := by
  intro n
  induction n with
  | zero =>
    intro r l r' h
    simp only [extraLoop] at h
    cases h
    rfl
  | succ n ih =>
    intro r l r' h
    simp only [extraLoop] at h
    cases hx : r.randint 1 ((ge : Int) * 5) with
    | error e => rw [hx] at h; cases h
    | ok xp =>
      rw [hx] at h
      simp only [bind, Except.bind] at h
      cases hm : pyModInt xp.1 tm with
      | error e => rw [hm] at h; cases h
      | ok ob =>
        rw [hm] at h
        simp only [bind, Except.bind] at h
        cases hd : xp.2.randint 1 28 with
        | error e => rw [hd] at h; cases h
        | ok dp =>
          rw [hd] at h
          simp only [bind, Except.bind] at h
          cases hrec : extraLoop ge tm n dp.2 with
          | error e => rw [hrec] at h; cases h
          | ok rest =>
            rw [hrec] at h
            simp only [bind, Except.bind] at h
            cases h
            simp [ih _ _ _ hrec]

theorem noiseLoop_length (ge tm : Nat) :
    ∀ (n : Nat) (r : PyRandom) (l : List FactRec) (r' : PyRandom),
      noiseLoop ge tm n r = .ok (l, r') → l.length = n := by
  intro n
  induction n with
  | zero =>
    intro r l r' h
    simp only [noiseLoop] at h
    cases h
    rfl
  | succ n ih =>
    intro r l r' h
    simp only [noiseLoop] at h
    cases ha : r.randint 1 ((ge : Int) * 5) with
    | error e => rw [ha] at h; cases h
    | ok ap =>
      rw [ha] at h
      simp only [bind, Except.bind] at h
      cases hb : ap.2.randint 0 ((tm : Int) - 1) with
      | error e => rw [hb] at h; cases h
      | ok bp =>
        rw [hb] at h
        simp only [bind, Except.bind] at h
        cases hv : bp.2.choice verbs with
        | error e => rw [hv] at h; cases h
        | ok vp =>
          rw [hv] at h
          simp only [bind, Except.bind] at h
          cases hmo : vp.2.randint 1 12 with
          | error e => rw [hmo] at h; cases h
          | ok mp =>
            rw [hmo] at h
            simp only [bind, Except.bind] at h
            cases hd : mp.2.randint 1 28 with
            | error e => rw [hd] at h; cases h
            | ok dp =>
              rw [hd] at h
              simp only [bind, Except.bind] at h
              cases hrec : noiseLoop ge tm n dp.2 with
              | error e => rw [hrec] at h; cases h
              | ok rest =>
                rw [hrec] at h
                simp only [bind, Except.bind] at h
                cases h
                simp [ih _ _ _ hrec]

theorem extraLoop_ok (ge tm : Nat) (hge : ge ≠ 0) (htm : tm ≠ 0) :
    ∀ (n : Nat) (r : PyRandom), ∃ l r', extraLoop ge tm n r = .ok (l, r') := by
  intro n
  induction n with
  | zero => intro r; exact ⟨[], r, rfl⟩
  | succ n ih =>
    intro r
    have h1 : ¬((ge : Int) * 5 < 1) := by omega
    have h2 : ¬((28 : Int) < 1) := by omega
    simp only [extraLoop, PyRandom.randint, if_neg h1, if_neg h2, pyModInt, if_neg htm,
      bind, Except.bind]
    obtain ⟨l, r', hrec⟩ := ih r.next.2.next.2
    rw [hrec]
    exact ⟨_, _, rfl⟩

theorem noiseLoop_ok (ge tm : Nat) (hge : ge ≠ 0) (htm : tm ≠ 0) :
    ∀ (n : Nat) (r : PyRandom), ∃ l r', noiseLoop ge tm n r = .ok (l, r') := by
  intro n
  induction n with
  | zero => intro r; exact ⟨[], r, rfl⟩
  | succ n ih =>
    intro r
    have h1 : ¬((ge : Int) * 5 < 1) := by omega
    have h2 : ¬(((tm : Int) - 1) < 0) := by omega
    have h3 : ¬((12 : Int) < 1) := by omega
    have h4 : ¬((28 : Int) < 1) := by omega
    simp only [noiseLoop, PyRandom.randint, PyRandom.choice, verbs, if_neg h1, if_neg h2,
      if_neg h3, if_neg h4, bind, Except.bind]
    obtain ⟨l, r', hrec⟩ := ih r.next.2.next.2.next.2.next.2.next.2
    rw [hrec]
    exact ⟨_, _, rfl⟩

/-! Characterisation of `from_synthetic`. -/

/-- The aligned gold facts of step 1, `gold.entity.1 .. gold.entity.ge`. -/
def step1List (ge tm : Nat) : List FactRec :=
  (List.range ge).map fun t => mkGoldFact (1 + t) ((1 + t) % tm)

theorem step1Loop_one (tm ge : Nat) (htm : tm ≠ 0) :
    step1Loop tm 1 ge = .ok (step1List ge tm) := by
  rw [step1Loop_eq tm htm ge 1]
  rfl

theorem from_synthetic_ok_elim {nf ng s ge tm : Nat} {b : MegaFactsBackend}
    (h : MegaFactsBackend.from_synthetic nf ng s ge tm = .ok b) :
    ∃ g1 exl r₁ nl r₂,
      step1Loop tm 1 ge = .ok g1 ∧
      extraLoop ge tm (ng - ge) (PyRandom.seedInit s) = .ok (exl, r₁) ∧
      noiseLoop ge tm (nf - (g1 ++ exl).length) r₁ = .ok (nl, r₂) ∧
      b.gold = g1 ++ exl ∧
      b.facts = (PyRandom.shuffle r₂ ((g1 ++ exl) ++ nl)).1 ∧
      b.rng = (PyRandom.shuffle r₂ ((g1 ++ exl) ++ nl)).2 := by
  simp only [MegaFactsBackend.from_synthetic] at h
  cases h1 : step1Loop tm 1 ge with
  | error e => rw [h1] at h; cases h
  | ok g1 =>
    rw [h1] at h
    simp only at h
    cases h2 : extraLoop ge tm (ng - ge) (PyRandom.seedInit s) with
    | error e => rw [h2] at h; cases h
    | ok exp =>
      rw [h2] at h
      simp only at h
      cases h3 : noiseLoop ge tm (nf - (g1 ++ exp.1).length) exp.2 with
      | error e => rw [h3] at h; cases h
      | ok np =>
        rw [h3] at h
        simp only at h
        cases h
        exact ⟨g1, exp.1, exp.2, np.1, np.2, rfl, rfl, by rw [h3], rfl, rfl, rfl⟩

theorem from_synthetic_spec (nf ng s ge tm : Nat) (hge : ge ≠ 0) (htm : tm ≠ 0) :
    ∃ exl r₁ nl r₂,
      extraLoop ge tm (ng - ge) (PyRandom.seedInit s) = .ok (exl, r₁) ∧
      noiseLoop ge tm (nf - (step1List ge tm ++ exl).length) r₁ = .ok (nl, r₂) ∧
      MegaFactsBackend.from_synthetic nf ng s ge tm =
        .ok ⟨(PyRandom.shuffle r₂ ((step1List ge tm ++ exl) ++ nl)).1, step1List ge tm ++ exl,
             (PyRandom.shuffle r₂ ((step1List ge tm ++ exl) ++ nl)).2⟩ := by
  obtain ⟨exl, r₁, hex⟩ := extraLoop_ok ge tm hge htm (ng - ge) (PyRandom.seedInit s)
  obtain ⟨nl, r₂, hnl⟩ := noiseLoop_ok ge tm hge htm (nf - (step1List ge tm ++ exl).length) r₁
  refine ⟨exl, r₁, nl, r₂, hex, hnl, ?_⟩
  have hs : step1Loop tm 1 ge = .ok (step1List ge tm) := step1Loop_one tm ge htm
  simp only [MegaFactsBackend.from_synthetic, hs, hex, hnl]

/-! Shape of `query`. -/

theorem query_fat (b : MegaFactsBackend) (q : String) (page ps : Int) :
    b.query q ("fat") page ps =
      (b.goldHits q ++ (PyRandom.shuffle b.rng (b.noisePool q)).1,
       ⟨b.facts, b.gold, (PyRandom.shuffle b.rng (b.noisePool q)).2⟩) := by
  simp [MegaFactsBackend.query]

theorem query_paged (b : MegaFactsBackend) (q : String) (page ps : Int) :
    b.query q ("paged") page ps =
      (pySlice (b.goldHits q ++ (PyRandom.shuffle b.rng (b.noisePool q)).1)
         (max 0 ((page - 1) * ps)) (max 0 ((page - 1) * ps) + ps),
       ⟨b.facts, b.gold, (PyRandom.shuffle b.rng (b.noisePool q)).2⟩) := by
  simp [MegaFactsBackend.query]

theorem query_preserves (b : MegaFactsBackend) (q mode : String) (page ps : Int) :
    ((b.query q mode page ps).2).facts = b.facts ∧ ((b.query q mode page ps).2).gold = b.gold := by
  simp only [MegaFactsBackend.query]
  split <;> exact ⟨rfl, rfl⟩

theorem query_items_cases (b : MegaFactsBackend) (q mode : String) (page ps : Int) :
    (b.query q mode page ps).1 = b.goldHits q ++ (PyRandom.shuffle b.rng (b.noisePool q)).1 ∨
    (b.query q mode page ps).1 =
      pySlice (b.goldHits q ++ (PyRandom.shuffle b.rng (b.noisePool q)).1)
        (max 0 ((page - 1) * ps)) (max 0 ((page - 1) * ps) + ps) := by
  simp only [MegaFactsBackend.query]
  split
  · exact Or.inl rfl
  · exact Or.inr rfl

theorem pySlice_subset {α : Type} (l : List α) (a b : Int) : pySlice l a b ⊆ l := by
  intro x hx
  exact List.drop_subset _ _ (List.take_subset _ _ hx)

/-! Tokenisation of the fixed query template. -/

theorem digitChar_not_space (d : Nat) : isPySpace (pyDigitChar d) = false := by
  match d with
  | 0 => rfl
  | 1 => rfl
  | 2 => rfl
  | 3 => rfl
  | 4 => rfl
  | 5 => rfl
  | 6 => rfl
  | 7 => rfl
  | 8 => rfl
  | 9 => rfl
  | n + 10 => rfl

theorem natCharsGo_not_space :
    ∀ (fuel n : Nat), ∀ c ∈ natCharsGo fuel n, isPySpace c = false := by
  intro fuel
  induction fuel with
  | zero => intro n c hc; simp [natCharsGo] at hc
  | succ fuel ih =>
    intro n c hc
    simp only [natCharsGo] at hc
    revert hc
    split
    · intro hc
      simp only [List.mem_singleton] at hc
      subst hc
      exact digitChar_not_space n
    · intro hc
      rcases List.mem_append.mp hc with h | h
      · exact ih (n / 10) c h
      · simp only [List.mem_singleton] at h
        subst h
        exact digitChar_not_space (n % 10)

theorem natChars_not_space (n : Nat) : ∀ c ∈ natChars n, isPySpace c = false :=
  natCharsGo_not_space (n + 1) n

theorem natChars_ne_nil (n : Nat) : natChars n ≠ [] := by
  simp only [natChars, natCharsGo]
  split <;> simp

theorem string_data_append (s t : String) : (s ++ t).data = s.data ++ t.data := rfl

theorem asString_data (l : List Char) : (List.asString l).data = l := rfl

theorem wordsAux_nonspace :
    ∀ (w cs acc : List Char), (∀ c ∈ w, isPySpace c = false) →
      wordsAux (w ++ cs) acc = wordsAux cs (w.reverse ++ acc) := by
  intro w
  induction w with
  | nil => intro cs acc _; simp
  | cons c w ih =>
    intro cs acc hw
    have hc : isPySpace c = false := hw c (List.mem_cons_self c w)
    simp only [List.cons_append, wordsAux, hc]
    simp only [Bool.false_eq_true, if_false, List.append_eq]
    rw [ih cs (c :: acc) (fun d hd => hw d (List.mem_cons_of_mem c hd))]
    simp [List.append_assoc]

theorem wordsAux_word_space (w : List Char) (hw : ∀ c ∈ w, isPySpace c = false)
    (hne : w ≠ []) (cs : List Char) :
    wordsAux (w ++ ' ' :: cs) [] = w :: wordsAux cs [] := by
  rw [wordsAux_nonspace w (' ' :: cs) [] hw, List.append_nil]
  simp only [wordsAux]
  rw [if_pos (show isPySpace ' ' = true by decide)]
  rw [if_neg (by simp [List.isEmpty_iff, hne])]
  simp

theorem wordsAux_word_end (w : List Char) (hw : ∀ c ∈ w, isPySpace c = false)
    (hne : w ≠ []) :
    wordsAux w [] = [w] := by
  have h := wordsAux_nonspace w [] [] hw
  rw [List.append_nil] at h
  rw [h, List.append_nil]
  simp only [wordsAux]
  rw [if_neg (by simp [List.isEmpty_iff, hne])]
  simp

theorem pySplit_goldQuery (i j : Nat) :
    pySplit (goldQuery i j) =
      [("gold.entity." : String) ++ natStr i, ("is" : String), ("associated" : String),
       ("with" : String), ("gold.topic." : String) ++ natStr j] := by
  have hmid : (" is associated with gold.topic." : String).data =
      ' ' :: (("is" : String).data ++ ' ' :: (("associated" : String).data ++ ' ' ::
        (("with" : String).data ++ ' ' :: ("gold.topic." : String).data))) := rfl
  have hdata : (goldQuery i j).data =
      ("gold.entity." : String).data ++ (natChars i ++ ' ' :: (("is" : String).data ++ ' ' ::
        (("associated" : String).data ++ ' ' :: (("with" : String).data ++ ' ' ::
          (("gold.topic." : String).data ++ natChars j))))) := by
    simp only [goldQuery, string_data_append, hmid]
    simp only [natStr]
    simp only [asString_data]
    simp [List.append_assoc, List.cons_append]
  have hlit1 : ∀ c ∈ ("gold.entity." : String).data, isPySpace c = false := by decide
  have hlit2 : ∀ c ∈ ("gold.topic." : String).data, isPySpace c = false := by decide
  have hg1 : ∀ c ∈ ("gold.entity." : String).data ++ natChars i, isPySpace c = false := by
    intro c hc
    rcases List.mem_append.mp hc with h | h
    · exact hlit1 c h
    · exact natChars_not_space i c h
  have hg1ne : ("gold.entity." : String).data ++ natChars i ≠ [] := by
    simp [natChars_ne_nil]
  have hg2 : ∀ c ∈ ("gold.topic." : String).data ++ natChars j, isPySpace c = false := by
    intro c hc
    rcases List.mem_append.mp hc with h | h
    · exact hlit2 c h
    · exact natChars_not_space j c h
  have hg2ne : ("gold.topic." : String).data ++ natChars j ≠ [] := by
    simp [natChars_ne_nil]
  simp only [pySplit, hdata]
  rw [← List.append_assoc]
  rw [wordsAux_word_space _ hg1 hg1ne]
  rw [wordsAux_word_space _ (by decide) (by decide)]
  rw [wordsAux_word_space _ (by decide) (by decide)]
  rw [wordsAux_word_space _ (by decide) (by decide)]
  rw [wordsAux_word_end _ hg2 hg2ne]
  rfl

theorem parsedEntity_goldQuery (i j : Nat) :
    parsedEntity (goldQuery i j) = some (("gold.entity." : String) ++ natStr i) := by
  rw [parsedEntity, pySplit_goldQuery]
  rfl

theorem parsedTopic_goldQuery (i j : Nat) :
    parsedTopic (goldQuery i j) = some (("gold.topic." : String) ++ natStr j) := by
  rw [parsedTopic, pySplit_goldQuery]
  simp [List.getLast?]

/-! Heads of filtered lists and slices. -/

theorem head_filter_eq {α : Type} (p : α → Bool) (l : List α) (c : α)
    (h₁ : ∃ f ∈ l, p f = true) (h₂ : ∀ f ∈ l, p f = true → f = c) :
    (l.filter p).head? = some c := by
  cases hf : l.filter p with
  | nil =>
    obtain ⟨f, hfl, hpf⟩ := h₁
    have hmem : f ∈ l.filter p := List.mem_filter.mpr ⟨hfl, hpf⟩
    rw [hf] at hmem
    cases hmem
  | cons a tl =>
    have ha : a ∈ l.filter p := by rw [hf]; exact List.mem_cons_self a tl
    obtain ⟨hal, hpa⟩ := List.mem_filter.mp ha
    simp [h₂ a hal hpa]

theorem head_filter_append {α : Type} (p : α → Bool) (l r : List α) (c : α)
    (h : (l.filter p).head? = some c) :
    ((l ++ r).filter p).head? = some c := by
  rw [List.filter_append]
  cases hf : l.filter p with
  | nil => rw [hf] at h; cases h
  | cons a tl =>
    rw [hf] at h
    simpa using h

theorem head?_append_left {α : Type} {l r : List α} {c : α} (h : l.head? = some c) :
    (l ++ r).head? = some c := by
  cases l with
  | nil => cases h
  | cons a tl => simpa using h

theorem pySlice_zero_head {α : Type} (l : List α) (e : Int) (he : 1 ≤ e) (c : α)
    (h : l.head? = some c) : (pySlice l 0 e).head? = some c := by
  cases l with
  | nil => cases h
  | cons a tl =>
    simp only [List.head?] at h
    simp only [pySlice, pySliceBound]
    rw [if_neg (by omega), if_neg (by omega)]
    have h1 : min (0 : Int).toNat (a :: tl).length = 0 := by simp
    rw [h1, List.drop_zero, Nat.sub_zero]
    have h2 : min e.toNat (a :: tl).length = (min e.toNat (a :: tl).length - 1) + 1 := by
      simp only [List.length_cons]
      omega
    rw [h2, List.take_succ_cons]
    simpa using h

/-! The gold hit of the fixed template query. -/

theorem goldHits_goldQuery_head (nf ng s ge tm i : Nat) (b : MegaFactsBackend)
    (hok : MegaFactsBackend.from_synthetic nf ng s ge tm = Except.ok b)
    (hge : 1 ≤ ge) (htm : 1 ≤ tm) (hi1 : 1 ≤ i) (hige : i ≤ ge) :
    (b.goldHits (goldQuery i (i % tm))).head? = some (mkGoldFact i (i % tm)) := by
  obtain ⟨exl, r₁, nl, r₂, hex, hnl, heq⟩ :=
    from_synthetic_spec nf ng s ge tm (by omega) (by omega)
  rw [heq] at hok
  injection hok with hb
  subst hb
  simp only [MegaFactsBackend.goldHits, parsedEntity_goldQuery, parsedTopic_goldQuery]
  apply head_filter_append
  apply head_filter_eq
  · refine ⟨mkGoldFact i (i % tm), ?_, ?_⟩
    · simp only [step1List]
      refine List.mem_map.mpr ⟨i - 1, List.mem_range.mpr (by omega), ?_⟩
      have hi : 1 + (i - 1) = i := by omega
      rw [hi]
    · simp [is_gold_match, mkGoldFact]
  · intro f hf hp
    simp only [step1List] at hf
    obtain ⟨t, _, rfl⟩ := List.mem_map.mp hf
    simp only [is_gold_match, mkGoldFact, Bool.and_eq_true, decide_eq_true_eq,
      Option.some.injEq] at hp
    simp only [mkGoldFact, FactRec.mk.injEq]
    exact ⟨hp.1.1.symm, trivial, hp.2.symm, trivial, trivial, trivial⟩

/-- C1: for every backend built by `from_synthetic` with `gold_entities ≥ 1` and
`topic_mod ≥ 1`, and for every `i` in `1..gold_entities`, querying the fixed
template for index `i` returns the step-1 gold fact (subject
`gold.entity.<i>`, predicate `is associated with`, object
`gold.topic.<i mod topic_mod>`) as the first item, both in fat mode and in
paged mode with page 1 and any `page_size ≥ 1`. -/
theorem mega_c1_template_query_first_item (nf ng s ge tm i : Nat) (ps : Int)
    (b : MegaFactsBackend)
    (hok : MegaFactsBackend.from_synthetic nf ng s ge tm = Except.ok b)
    (hge : 1 ≤ ge) (htm : 1 ≤ tm) (hi1 : 1 ≤ i) (hige : i ≤ ge) (hps : 1 ≤ ps) :
    (b.query (goldQuery i (i % tm)) ("fat") 1 50).1.head? = some (mkGoldFact i (i % tm)) ∧
    (b.query (goldQuery i (i % tm)) ("paged") 1 ps).1.head? = some (mkGoldFact i (i % tm)) := by
  have hhead := goldHits_goldQuery_head nf ng s ge tm i b hok hge htm hi1 hige
  constructor
  · rw [query_fat]
    exact head?_append_left hhead
  · rw [query_paged]
    have hs0 : max (0 : Int) ((1 - 1) * ps) = 0 := by simp
    rw [hs0, zero_add]
    exact pySlice_zero_head _ ps hps _ (head?_append_left hhead)

/-- Witness for C1: the concrete instance `from_synthetic 0 0 0 1 1`,
`i = 1`, `page_size = 1`. -/
theorem mega_c1_template_query_first_item_witness :
    (sampleBackend.query (goldQuery 1 (1 % 1)) ("fat") 1 50).1.head? =
      some (mkGoldFact 1 (1 % 1)) ∧
    (sampleBackend.query (goldQuery 1 (1 % 1)) ("paged") 1 1).1.head? =
      some (mkGoldFact 1 (1 % 1)) :=
  mega_c1_template_query_first_item 0 0 0 1 1 1 1 sampleBackend (by rfl)
    (by omega) (by omega) (by omega) (by omega) (by omega)

/-- C2: for every backend and every query string, the fat result is the
gold-match segment followed by a permutation of the noise pool; a gold fact
is in the segment iff its fields equal the parsed entity, the fixed
predicate and the parsed topic; the segment keeps the gold-list order
(it is a sublist, never re-sorted); and the noise pool is exactly the
corpus facts not value-equal to any gold match. -/
theorem mega_c2_gold_match_partition (b : MegaFactsBackend) (q : String) :
    (∃ ns, (b.query q ("fat") 1 50).1 = b.goldHits q ++ ns ∧ ns.Perm (b.noisePool q)) ∧
    (∀ f, f ∈ b.goldHits q ↔ f ∈ b.gold ∧ parsedEntity q = some f.subject ∧
        f.predicate = "is associated with" ∧ parsedTopic q = some f.object) ∧
    (b.goldHits q).Sublist b.gold ∧
    (∀ f, f ∈ b.noisePool q ↔ f ∈ b.facts ∧ f ∉ b.goldHits q) := by
  refine ⟨⟨(PyRandom.shuffle b.rng (b.noisePool q)).1, ?_, shuffle_perm _ _⟩, ?_, ?_, ?_⟩
  · rw [query_fat]
  · intro f
    simp [MegaFactsBackend.goldHits, List.mem_filter, is_gold_match, and_assoc]
  · exact List.filter_sublist _
  · intro f
    simp [MegaFactsBackend.noisePool, List.mem_filter]

/-- C5: two backends constructed with identical parameters and seed are
identical — gold list, corpus and RNG state — before any query is issued. -/
theorem mega_c5_construction_deterministic (nf ng s ge tm : Nat) (b₁ b₂ : MegaFactsBackend)
    (h₁ : MegaFactsBackend.from_synthetic nf ng s ge tm = Except.ok b₁)
    (h₂ : MegaFactsBackend.from_synthetic nf ng s ge tm = Except.ok b₂) :
    b₁.gold = b₂.gold ∧ b₁.facts = b₂.facts ∧ b₁ = b₂ := by
  rw [h₁] at h₂
  injection h₂ with h
  exact ⟨by rw [h], by rw [h], h⟩

/-- Witness for C5 at `from_synthetic 0 0 0 1 1`. -/
theorem mega_c5_construction_deterministic_witness :
    sampleBackend.gold = sampleBackend.gold ∧ sampleBackend.facts = sampleBackend.facts ∧
      sampleBackend = sampleBackend :=
  mega_c5_construction_deterministic 0 0 0 1 1 sampleBackend sampleBackend (by rfl) (by rfl)

/-- C7 (amended): `from_synthetic` returns a backend without raising for all
non-negative arguments, provided `gold_entities ≥ 1` and `topic_mod ≥ 1`;
`n_facts < n_gold` silently yields fewer (possibly zero) noise facts, the
corpus size being `max n_facts (gold_entities + (n_gold - gold_entities))`. -/
theorem mega_c7_no_failure_when_params_positive (nf ng s ge tm : Nat)
    (hge : 1 ≤ ge) (htm : 1 ≤ tm) :
    ∃ b, MegaFactsBackend.from_synthetic nf ng s ge tm = Except.ok b ∧
      b.facts.length = max nf (ge + (ng - ge)) := by
  obtain ⟨exl, r₁, nl, r₂, hex, hnl, heq⟩ :=
    from_synthetic_spec nf ng s ge tm (by omega) (by omega)
  refine ⟨_, heq, ?_⟩
  have hl2 : exl.length = ng - ge := extraLoop_length ge tm _ _ _ _ hex
  have hl3 : nl.length = nf - (step1List ge tm ++ exl).length :=
    noiseLoop_length ge tm _ _ _ _ hnl
  have hl1 : (step1List ge tm).length = ge := by simp [step1List]
  simp only [shuffle_length, List.length_append, hl1, hl2] at hl3 ⊢
  omega

/-- Witness for C7 at `n_facts = 0 < 1 = n_gold`-free instance
`from_synthetic 0 0 0 1 1`. -/
theorem mega_c7_no_failure_when_params_positive_witness :
    ∃ b, MegaFactsBackend.from_synthetic 0 0 0 1 1 = Except.ok b ∧
      b.facts.length = max 0 (1 + (0 - 1)) :=
  mega_c7_no_failure_when_params_positive 0 0 0 1 1 (by omega) (by omega)

/-- Counterexample for C7 as stated: with the non-negative arguments
`topic_mod = 0` and `gold_entities = 1`, `from_synthetic` raises
`ZeroDivisionError` at `i % topic_mod` instead of returning a backend. -/
theorem mega_c7_counterexample :
    MegaFactsBackend.from_synthetic 0 0 0 1 0 = Except.error PyErr.zeroDivisionError ∧
    ¬ ∃ b, MegaFactsBackend.from_synthetic 0 0 0 1 0 = Except.ok b := by
  constructor
  · rfl
  · rintro ⟨b, hb⟩
    have h0 : MegaFactsBackend.from_synthetic 0 0 0 1 0 =
        Except.error PyErr.zeroDivisionError := rfl
    rw [h0] at hb
    cases hb

/-- C9: any sequence of query calls leaves the stored facts and the gold
list unchanged in content and order; only the RNG field of the backend can
differ. -/
theorem mega_c9_queries_preserve_corpus :
    ∀ (calls : List (String × String × Int × Int)) (b : MegaFactsBackend),
      (runQueries b calls).facts = b.facts ∧ (runQueries b calls).gold = b.gold := by
  intro calls
  induction calls with
  | nil => intro b; exact ⟨rfl, rfl⟩
  | cons c rest ih =>
    intro b
    simp only [runQueries]
    have h := query_preserves b c.1 c.2.1 c.2.2.1 c.2.2.2
    obtain ⟨h1, h2⟩ := ih (b.query c.1 c.2.1 c.2.2.1 c.2.2.2).2
    exact ⟨h1.trans h.1, h2.trans h.2⟩

/-- C4 (amended): when `n_facts ≥ n_gold` the corpus length is
`max n_facts (gold_entities + (n_gold - gold_entities))`; the corpus length
equals `n_facts` when `n_facts > gold_entities` and additionally
`n_facts ≥ n_gold`. -/
theorem mega_c4_corpus_length (nf ng s ge tm : Nat) (b : MegaFactsBackend)
    (hok : MegaFactsBackend.from_synthetic nf ng s ge tm = Except.ok b) :
    (nf ≥ ng → b.facts.length = max nf (ge + (ng - ge))) ∧
    (nf > ge → nf ≥ ng → b.facts.length = nf) := by
  obtain ⟨g1, exl, r₁, nl, r₂, h1, h2, h3, hgold, hfacts, hrng⟩ := from_synthetic_ok_elim hok
  have l1 : g1.length = ge := step1Loop_length tm ge 1 g1 h1
  have l2 : exl.length = ng - ge := extraLoop_length ge tm _ _ _ _ h2
  have l3 : nl.length = nf - (g1 ++ exl).length := noiseLoop_length ge tm _ _ _ _ h3
  have hlen : b.facts.length = g1.length + exl.length + nl.length := by
    rw [hfacts, shuffle_length]
    simp [List.length_append]
    omega
  simp only [List.length_append, l1, l2] at l3
  rw [l1, l2, l3] at hlen
  constructor
  · intro _
    omega
  · intro _ _
    omega

/-- Witness for C4 at `from_synthetic 0 0 0 1 1`. -/
theorem mega_c4_corpus_length_witness :
    ((0 : Nat) ≥ 0 → sampleBackend.facts.length = max 0 (1 + (0 - 1))) ∧
    ((0 : Nat) > 1 → (0 : Nat) ≥ 0 → sampleBackend.facts.length = 0) :=
  mega_c4_corpus_length 0 0 0 1 1 sampleBackend (by rfl)

/-- Counterexample for C4 as stated: `from_synthetic 2 3 0 1 1` has
`n_facts = 2 > 1 = gold_entities`, yet the corpus has 3 facts, not 2
(the requested `n_gold = 3` gold facts overflow `n_facts`). -/
theorem mega_c4_counterexample :
    ¬ (∀ b : MegaFactsBackend, MegaFactsBackend.from_synthetic 2 3 0 1 1 = Except.ok b →
        2 > 1 → b.facts.length = 2) := by
  intro h
  have hb := h cexBackend (by rfl) (by omega)
  have h3 : cexBackend.facts.length = 3 := by rfl
  omega

/-! Slice arithmetic. -/

theorem pySlice_out_of_range {α : Type} (l : List α) (a e : Int)
    (ha : (l.length : Int) ≤ a) : pySlice l a e = [] := by
  unfold pySlice pySliceBound
  have hnn : ¬ (a < 0) := by omega
  rw [if_neg hnn]
  have h1 : min a.toNat l.length = l.length := Nat.min_eq_right (by omega)
  rw [h1, List.drop_length]
  simp

theorem pySlice_zero_take {α : Type} (l : List α) (e : Int) (he : 0 ≤ e) :
    pySlice l 0 e = l.take e.toNat := by
  unfold pySlice pySliceBound
  rw [if_neg (by omega), if_neg (by omega)]
  have h1 : min (0 : Int).toNat l.length = 0 := by simp
  rw [h1, List.drop_zero, Nat.sub_zero]
  rw [List.take_eq_take]
  omega

/-- C3 (amended): for `page ≥ 1` and `page_size ≥ 1`, paged mode returns
exactly the slice `[(page-1)*page_size : page*page_size]` of the
concatenated gold-plus-noise sequence, and any out-of-range page (start at
or beyond the sequence length) yields an empty item list rather than an
error. -/
theorem mega_c3_paged_is_slice (b : MegaFactsBackend) (q : String) (page ps : Int)
    (hpage : 1 ≤ page) (hps : 1 ≤ ps) :
    (b.query q ("paged") page ps).1 =
      pySlice ((b.query q ("fat") 1 50).1) ((page - 1) * ps) (page * ps) ∧
    (((b.query q ("fat") 1 50).1.length : Int) ≤ (page - 1) * ps →
      (b.query q ("paged") page ps).1 = []) := by
  rw [query_paged, query_fat]
  have hmax : max (0 : Int) ((page - 1) * ps) = (page - 1) * ps :=
    max_eq_right (mul_nonneg (by omega) (by omega))
  have hend : (page - 1) * ps + ps = page * ps := by ring
  rw [hmax, hend]
  exact ⟨rfl, fun hge => pySlice_out_of_range _ _ _ hge⟩

/-- Witness for C3 at a concrete backend, `page = 2`, `page_size = 1`. -/
theorem mega_c3_paged_is_slice_witness :
    (tinyNoiseBackend.query ("") ("paged") 2 1).1 =
      pySlice ((tinyNoiseBackend.query ("") ("fat") 1 50).1) ((2 - 1) * 1) (2 * 1) ∧
    (((tinyNoiseBackend.query ("") ("fat") 1 50).1.length : Int) ≤ (2 - 1) * 1 →
      (tinyNoiseBackend.query ("") ("paged") 2 1).1 = []) :=
  mega_c3_paged_is_slice tinyNoiseBackend ("") 2 1 (by omega) (by omega)

/-- Counterexample for C3 as stated: at `page = 0`, `page_size = 1` the code
clamps the start index to 0 and returns the first item, which is neither
the slice `[(page-1)*page_size : page*page_size]` (empty under Python
slicing) nor an empty out-of-range result. -/
theorem mega_c3_counterexample :
    (tinyNoiseBackend.query ("") ("paged") 0 1).1 ≠
      pySlice ((tinyNoiseBackend.query ("") ("fat") 1 50).1) ((0 - 1) * 1) (0 * 1) ∧
    (tinyNoiseBackend.query ("") ("paged") 0 1).1 ≠ [] := by
  constructor
  · decide
  · decide

theorem itemsFull_ne_nil (b : MegaFactsBackend) (q : String) (hb : b.facts ≠ []) :
    b.goldHits q ++ (PyRandom.shuffle b.rng (b.noisePool q)).1 ≠ [] := by
  intro h
  rcases List.append_eq_nil.mp h with ⟨hg, hn⟩
  have hperm := (shuffle_perm b.rng (b.noisePool q)).symm
  rw [hn] at hperm
  have hnp : b.noisePool q = [] := hperm.eq_nil
  have hfacts : b.noisePool q = b.facts := by
    unfold MegaFactsBackend.noisePool
    rw [hg]
    simp
  rw [hfacts] at hnp
  exact hb hnp

/-- C10: for every `page ≤ 1` (including zero and negative pages) and
`page_size ≥ 1`, a paged query clamps the start index to 0: it returns the
`[0:page_size]` prefix of the concatenated gold-plus-noise sequence — the
same items as page 1 — and it is non-empty whenever the corpus is
non-empty. -/
theorem mega_c10_nonpositive_page_clamps (b : MegaFactsBackend) (q : String) (page ps : Int)
    (hps : 1 ≤ ps) (hpage : page ≤ 1) :
    (b.query q ("paged") page ps).1 = ((b.query q ("fat") 1 50).1).take ps.toNat ∧
    (b.query q ("paged") page ps).1 = (b.query q ("paged") 1 ps).1 ∧
    (b.facts ≠ [] → (b.query q ("paged") page ps).1 ≠ []) := by
  rw [query_paged, query_fat]
  have hmax : max (0 : Int) ((page - 1) * ps) = 0 :=
    max_eq_left (mul_nonpos_iff.mpr (Or.inr ⟨by omega, by omega⟩))
  have hmax1 : max (0 : Int) ((1 - 1) * ps) = 0 := by simp
  rw [hmax, zero_add]
  have htake := pySlice_zero_take
    (b.goldHits q ++ (PyRandom.shuffle b.rng (b.noisePool q)).1) ps (by omega)
  refine ⟨htake, ?_, ?_⟩
  · rw [query_paged, hmax1, zero_add]
  · intro hb
    rw [htake]
    have hne := itemsFull_ne_nil b q hb
    cases hfull : b.goldHits q ++ (PyRandom.shuffle b.rng (b.noisePool q)).1 with
    | nil => exact absurd hfull hne
    | cons a tl =>
      have h1 : ps.toNat = (ps.toNat - 1) + 1 := by omega
      rw [h1, List.take_succ_cons]
      simp

/-- Witness for C10 at a concrete backend, `page = 0`, `page_size = 1`. -/
theorem mega_c10_nonpositive_page_clamps_witness :
    (tinyNoiseBackend.query ("") ("paged") 0 1).1 =
      ((tinyNoiseBackend.query ("") ("fat") 1 50).1).take (1 : Int).toNat ∧
    (tinyNoiseBackend.query ("") ("paged") 0 1).1 =
      (tinyNoiseBackend.query ("") ("paged") 1 1).1 ∧
    (tinyNoiseBackend.facts ≠ [] → (tinyNoiseBackend.query ("") ("paged") 0 1).1 ≠ []) :=
  mega_c10_nonpositive_page_clamps tinyNoiseBackend ("") 0 1 (by omega) (by omega)

/-- C6 (amended): `query` is total for every query string; when the string
has no whitespace tokens (for example the empty string), the parsed entity
and topic stay `None`, no gold fact matches, and every returned item comes
from the noise pool.  A malformed but tokenisable string can still match
gold facts, so the claim's scope is narrowed to token-free strings. -/
theorem mega_c6_tokenless_query_degrades (b : MegaFactsBackend) (q mode : String)
    (page ps : Int) (hq : pySplit q = []) :
    parsedEntity q = none ∧ parsedTopic q = none ∧ b.goldHits q = [] ∧
    ∀ f ∈ (b.query q mode page ps).1, f ∈ b.noisePool q := by
  have he : parsedEntity q = none := by simp [parsedEntity, hq]
  have ht : parsedTopic q = none := by simp [parsedTopic, hq]
  have hg : b.goldHits q = [] := by
    unfold MegaFactsBackend.goldHits
    rw [he, ht]
    apply List.filter_eq_nil_iff.mpr
    intro f _
    simp [is_gold_match]
  refine ⟨he, ht, hg, ?_⟩
  intro f hf
  have hmem : f ∈ b.goldHits q ++ (PyRandom.shuffle b.rng (b.noisePool q)).1 := by
    rcases query_items_cases b q mode page ps with hcase | hcase
    · rw [hcase] at hf
      exact hf
    · rw [hcase] at hf
      exact pySlice_subset _ _ _ hf
  rw [hg] at hmem
  simp only [List.nil_append] at hmem
  exact (shuffle_perm b.rng (b.noisePool q)).mem_iff.mp hmem

/-- Witness for C6 at the empty query string. -/
theorem mega_c6_tokenless_query_degrades_witness :
    parsedEntity ("") = none ∧ parsedTopic ("") = none ∧
    tinyGoldBackend.goldHits ("") = [] ∧
    ∀ f ∈ (tinyGoldBackend.query ("") ("fat") 1 50).1, f ∈ tinyGoldBackend.noisePool ("") :=
  mega_c6_tokenless_query_degrades tinyGoldBackend ("") ("fat") 1 50 (by rfl)

/-- Counterexample for C6 as stated: the string
`gold.entity.1 zzz gold.topic.0` does not match the fixed template, yet the
backend still parses its first and last tokens, matches a gold fact, and
returns it first — so "no gold fact matches, all results are noise" fails
for malformed-but-tokenisable strings. -/
theorem mega_c6_counterexample :
    (tinyGoldBackend.query ("gold.entity.1 zzz gold.topic.0") ("fat") 1 50).1.head? =
      some (mkGoldFact 1 0) ∧
    tinyGoldBackend.goldHits ("gold.entity.1 zzz gold.topic.0") ≠ [] ∧
    mkGoldFact 1 0 ∉ tinyGoldBackend.noisePool ("gold.entity.1 zzz gold.topic.0") := by
  refine ⟨?_, ?_, ?_⟩
  · decide
  · decide
  · decide

/-! Page length arithmetic for C8. -/

theorem ceil_mul_ge (n k : Nat) (hk : 1 ≤ k) : n ≤ ((n + (k - 1)) / k) * k := by
  rcases n with _ | m
  · simp
  · have h1 : m + 1 + (k - 1) = m + k := by omega
    rw [h1]
    have h2 : (m + k) / k = m / k + 1 := Nat.add_div_right m (by omega)
    rw [h2]
    have h3 := Nat.div_add_mod m k
    have h4 : m % k < k := Nat.mod_lt m (by omega)
    have h5 : (m / k + 1) * k = k * (m / k) + k := by ring
    rw [h5]
    omega

theorem pySlice_natCast_length {α : Type} (l : List α) (m k : Nat) :
    (pySlice l ((m : Nat) : Int) (((m + k : Nat) : Nat) : Int)).length =
      min k (l.length - m) := by
  unfold pySlice pySliceBound
  rw [if_neg (by omega), if_neg (by omega)]
  have h1 : ((m : Nat) : Int).toNat = m := by omega
  have h2 : (((m + k : Nat) : Nat) : Int).toNat = m + k := by omega
  rw [h1, h2, List.length_take, List.length_drop]
  omega

theorem query_paged_length (b0 b : MegaFactsBackend) (q : String)
    (hf : b.facts = b0.facts) (hg : b.gold = b0.gold) (t k : Nat) :
    (b.query q ("paged") (((1 + t : Nat) : Nat) : Int) ((k : Nat) : Int)).1.length =
      min k (totalCount b0 q - t * k) := by
  rw [query_paged]
  have hgh : b.goldHits q = b0.goldHits q := by
    unfold MegaFactsBackend.goldHits
    rw [hg]
  have hnp : b.noisePool q = b0.noisePool q := by
    unfold MegaFactsBackend.noisePool
    rw [hf, hgh]
  have hpage : (((1 + t : Nat) : Nat) : Int) - 1 = ((t : Nat) : Int) := by push_cast; ring
  rw [hpage]
  have hmax : max (0 : Int) (((t : Nat) : Int) * ((k : Nat) : Int)) = ((t * k : Nat) : Int) := by
    push_cast
    exact max_eq_right (by positivity)
  rw [hmax]
  have hend : ((t * k : Nat) : Int) + ((k : Nat) : Int) = ((t * k + k : Nat) : Int) := by
    push_cast
    ring
  rw [hend, pySlice_natCast_length]
  have hfull : (b.goldHits q ++ (PyRandom.shuffle b.rng (b.noisePool q)).1).length =
      totalCount b0 q := by
    rw [List.length_append, shuffle_length, hgh, hnp]
    rfl
  rw [hfull]

theorem pagedRun_length_formula (b0 : MegaFactsBackend) (q : String) (k : Nat) :
    ∀ (c p : Nat) (b : MegaFactsBackend), 1 ≤ p → b.facts = b0.facts → b.gold = b0.gold →
      (pagedRun q ((k : Nat) : Int) b p c).1.length =
        min (c * k) (totalCount b0 q - (p - 1) * k) := by
  intro c
  induction c with
  | zero =>
    intro p b hp hf hg
    simp [pagedRun]
  | succ c ih =>
    intro p b hp hf hg
    simp only [pagedRun, List.length_append]
    have hpe : p = 1 + (p - 1) := by omega
    have hq1 : (b.query q ("paged") ((p : Nat) : Int) ((k : Nat) : Int)).1.length =
        min k (totalCount b0 q - (p - 1) * k) := by
      conv_lhs => rw [hpe]
      exact query_paged_length b0 b q hf hg (p - 1) k
    have hpres := query_preserves b q ("paged") ((p : Nat) : Int) ((k : Nat) : Int)
    have hnext := ih (p + 1) (b.query q ("paged") ((p : Nat) : Int) ((k : Nat) : Int)).2
      (by omega) (hpres.1.trans hf) (hpres.2.trans hg)
    rw [hq1, hnext]
    have e1 : p + 1 - 1 = p := by omega
    rw [e1]
    have e2 : p * k = (p - 1) * k + k := by
      have hp2 : p = (p - 1) + 1 := by omega
      calc p * k = ((p - 1) + 1) * k := by rw [← hp2]
        _ = (p - 1) * k + k := by ring
    have e3 : (c + 1) * k = c * k + k := by ring
    rw [e2, e3]
    generalize totalCount b0 q = n
    generalize (p - 1) * k = a
    generalize c * k = m
    omega

/-- C8: for any query string and `page_size ≥ 1`, concatenating the paged
results for pages `1 .. ceil(total / page_size)` on one backend — threading
its RNG state through the calls — yields exactly as many items as a single
fat-mode call on an equally-seeded fresh backend. -/
theorem mega_c8_paging_consistency (nf ng s ge tm : Nat) (b b' : MegaFactsBackend)
    (q : String) (ps : Int)
    (hok : MegaFactsBackend.from_synthetic nf ng s ge tm = Except.ok b)
    (hok' : MegaFactsBackend.from_synthetic nf ng s ge tm = Except.ok b')
    (hps : 1 ≤ ps) :
    (pagedRun q ps b 1
        (((b.query q ("fat") 1 50).1.length + (ps.toNat - 1)) / ps.toNat)).1.length =
      (b'.query q ("fat") 1 50).1.length := by
  rw [hok] at hok'
  injection hok' with hbb
  subst hbb
  have hfat : (b.query q ("fat") 1 50).1.length = totalCount b q := by
    rw [query_fat]
    simp only [List.length_append, shuffle_length]
    rfl
  rw [hfat]
  set k := ps.toNat with hkdef
  have hk : ps = ((k : Nat) : Int) := by omega
  have hk1 : 1 ≤ k := by omega
  rw [hk]
  rw [pagedRun_length_formula b q k ((totalCount b q + (k - 1)) / k) 1 b (by omega) rfl rfl]
  have h0 : ((1 : Nat) - 1) * k = 0 := by omega
  rw [h0, Nat.sub_zero]
  exact Nat.min_eq_right (ceil_mul_ge (totalCount b q) k hk1)

/-- Witness for C8 at `from_synthetic 0 0 0 1 1`, the empty query and
`page_size = 1`. -/
theorem mega_c8_paging_consistency_witness :
    (pagedRun ("") 1 sampleBackend 1
        (((sampleBackend.query ("") ("fat") 1 50).1.length + ((1 : Int).toNat - 1)) /
          (1 : Int).toNat)).1.length =
      (sampleBackend.query ("") ("fat") 1 50).1.length :=
  mega_c8_paging_consistency 0 0 0 1 1 sampleBackend sampleBackend ("") 1
    (by rfl) (by rfl) (by omega)
